import Mathlib

/-!
Verification development for the `adynamicequalizer` audio filter node
(`libavfilter/af_adynamicequalizer.c`) and the link/activation protocol it
participates in.  The control-surface code (`activate`, `filter_frame`,
`config_output`, `query_formats`, `get_coef`, the option table, `uninit`)
is embedded shallowly below.  The generic link helpers
(`ff_inlink_consume_frame`, `ff_inlink_consume_samples`, the
`FF_FILTER_FORWARD_*` macros, `ff_filter_frame`, `ff_filter_execute`) and
the numeric kernel of `adynamicequalizer_template.c` are not part of the
extracted sources; they are modelled from the specification of the
dataflow protocol and appear with doc comments saying so.
-/

namespace ADynEq

/-- Modelled from the spec: the NotReady scheduling-stall code
(`FFERROR_NOT_READY`), a negative status distinct from success (0). -/
def FFERROR_NOT_READY : Int := -1146242382

/-- Modelled from the spec: the out-of-memory error code `AVERROR(ENOMEM)`,
negated errno as used by the surrounding project. -/
def AVERROR_ENOMEM : Int := -12

/-- An audio frame: sample count, writability (sole referent), an opaque
metadata bundle (the properties copied by `av_frame_copy_props`) and the
planar payload, abstracted to one channel worth of samples. -/
structure AVFrame where
  nb_samples : Nat
  writable : Bool
  props : Nat
  data : List Int
deriving DecidableEq

/-- Observable events of one `filter_frame` call, in call order:
the `filter_prepare` pass, the `ff_filter_execute` fan-out with its job
count, the frees of the held input and sidechain frames, and the
downstream push. -/
inductive Ev where
  | prep
  | exec (jobs : Nat)
  | freeIn
  | freeSc
  | push
deriving DecidableEq

/-- Per-channel DSP state registers of `ChannelContext` (one precision
bank); they are zeroed by `av_calloc` and touched only by the numeric
kernel of the template file. -/
structure DspBank where
  fa : ℝ × ℝ × ℝ
  fm : ℝ × ℝ × ℝ
  dstate : ℝ × ℝ
  fstate : ℝ × ℝ
  tstate : ℝ × ℝ
  lin_gain : ℝ
  detect : ℝ
  threshold_log : ℝ
  new_threshold_log : ℝ
  log_sum : ℝ
  sum : ℝ

/-- The all-zero DSP bank, as produced by `av_calloc`. -/
def DspBank.zero : DspBank :=
  ⟨(0, 0, 0), (0, 0, 0), (0, 0), (0, 0), (0, 0), 0, 0, 0, 0, 0, 0⟩

/-- One `ChannelContext` record: the two precision banks, the two ring
buffers (`queue` for the delayed raw signal, `dqueue` for the delayed
detection signal) and their circular indices, plus the detection and
seeding flags. -/
structure ChannelContext where
  bank_double : DspBank
  bank_float : DspBank
  dqueue : List Int
  queue : List Int
  position : Nat
  size : Nat
  front : Nat
  back : Nat
  detection : Int
  init : Bool

/-- A freshly configured channel: `av_calloc` zeroes every register and
each ring buffer holds `sample_rate` zero entries. -/
def zeroChannel (sample_rate : Nat) : ChannelContext :=
  ⟨DspBank.zero, DspBank.zero, List.replicate sample_rate 0,
    List.replicate sample_rate 0, 0, 0, 0, 0, 0, false⟩

/-- The two per-format implementations installed by `config_output`:
the `filter_prepare_float`/`filter_channels_float` pair or the
`filter_prepare_double`/`filter_channels_double` pair. -/
inductive FilterImpl where
  | flt
  | dbl
deriving DecidableEq

/-- The planar sample formats the filter negotiates. -/
inductive SampleFmt where
  | fltp
  | dblp
deriving DecidableEq

/-- Environment oracle: whether `ff_get_audio_buffer` succeeds, the worker
count reported by `ff_filter_get_nb_threads`, and the per-channel DSP body
of the template file (absent from the extracted sources), modelled from
the spec as an arbitrary map from input and sidechain payloads to an
output payload. -/
structure Oracle where
  allocOk : Bool
  nb_threads : Nat
  proc : List Int → Option (List Int) → List Int

/-- The filter node together with its three links, flattened:
main input link (frame fifo, upstream status, status sent upstream,
request flag), sidechain input link (sample queue, same flags), output
link (pushed frames, the status the downstream set on it, the status this
node forwarded, the downstream pull request flag), the held frames
`s->in` and `s->sc`, and the configured channel state. -/
structure Node where
  sidechain : Bool
  inF : Option AVFrame
  sc : Option AVFrame
  mainFifo : List AVFrame
  mainStatusIn : Option Int
  mainOStatus : Option Int
  mainWanted : Bool
  scSamples : List Int
  scStatusIn : Option Int
  scOStatus : Option Int
  scWanted : Bool
  outPushed : List AVFrame
  outDownStatus : Option Int
  outStatus : Option Int
  outWanted : Bool
  nb_channels : Nat
  cc : List ChannelContext
  impl : FilterImpl

/-- Modelled from the spec: `ff_inlink_consume_frame` on the main input —
if the queue is non-empty, pop one frame into the held slot; otherwise
leave the node unchanged. -/
def consume_main (s : Node) : Node :=
  if s.inF.isNone then
    match s.mainFifo with
    | f :: rest => { s with inF := some f, mainFifo := rest }
    | [] => s
  else s

/-- Modelled from the spec: `ff_inlink_consume_samples` on the sidechain —
pull between `minS` and `maxS` queued samples as one frame; the pull
fails (returns `none`) when fewer than `minS` samples are queued. -/
def consume_samples (q : List Int) (minS maxS : Nat) :
    Option (AVFrame × List Int) :=
  let n := min maxS q.length
  if minS ≤ n then
    some (⟨n, true, 0, q.take n⟩, q.drop n)
  else none

/-- Result of one `filter_frame` call: the return code, the updated node,
and the event trace. -/
structure FFOut where
  ret : Int
  st : Node
  events : List Ev

/-- Shallow embedding of `filter_frame`: reuse the held input in place
when it is writable, otherwise allocate a fresh buffer of the same sample
count (releasing the input and failing with `AVERROR_ENOMEM` when the
allocation oracle refuses) and copy the frame properties; run the
preparation pass and the channel fan-out with
`min nb_channels nb_threads` jobs; release the held input and sidechain
frames, clear both held slots, and push the output downstream
(`ff_filter_frame`, modelled from the spec as an append to the output
queue). -/
def filter_frame (o : Oracle) (s : Node) (inF : AVFrame)
    (sc : Option AVFrame) : FFOut :=
  let k := min s.nb_channels o.nb_threads
  if inF.writable then
    let out : AVFrame := { inF with data := o.proc inF.data (Option.map AVFrame.data sc) }
    ⟨0, { s with inF := none, sc := none, outPushed := s.outPushed ++ [out] },
      [Ev.prep, Ev.exec k, Ev.freeSc, Ev.push]⟩
  else if o.allocOk then
    let out : AVFrame :=
      ⟨inF.nb_samples, true, inF.props, o.proc inF.data (Option.map AVFrame.data sc)⟩
    ⟨0, { s with inF := none, sc := none, outPushed := s.outPushed ++ [out] },
      [Ev.prep, Ev.exec k, Ev.freeIn, Ev.freeSc, Ev.push]⟩
  else
    ⟨AVERROR_ENOMEM, s, [Ev.freeIn]⟩

/-- Result of one activation: the return code, the updated node, the
(min, max) sample request issued on the sidechain link if any, the
(input, sidechain) argument pair of the `filter_frame` call if one was
made, and the `filter_frame` event trace. -/
structure ActOut where
  ret : Int
  st : Node
  scReq : Option (Nat × Nat)
  ffCall : Option (AVFrame × Option AVFrame)
  events : List Ev

/-- Shallow embedding of `activate`.  The order follows the source: the
`FF_FILTER_FORWARD_STATUS_BACK_ALL` macro first (modelled from the spec:
a status set by the downstream on the output link is copied back onto
every input link and the step returns 0); then consume a main frame if
none is held; with a held main frame and sidechain enabled but no
sidechain frame, request exactly `nb_samples` samples, and on failure
forward the sidechain status downstream, forward the downstream pull
request to the sidechain link, and return 0; once all frames are held,
call `filter_frame`; with no main frame, forward the main input status
downstream or the pull request upstream, else return NotReady. -/
def activate (o : Oracle) (s0 : Node) : ActOut :=
  match s0.outDownStatus with
  | some c =>
      ⟨0, { s0 with
              mainOStatus := some c,
              scOStatus := if s0.sidechain then some c else s0.scOStatus },
        none, none, []⟩
  | none =>
      let s := consume_main s0
      match s.inF with
      | some f =>
          if s.sidechain && s.sc.isNone then
            match consume_samples s.scSamples f.nb_samples f.nb_samples with
            | some (g, rest) =>
                let r := filter_frame o { s with sc := some g, scSamples := rest } f (some g)
                ⟨r.ret, r.st, some (f.nb_samples, f.nb_samples), some (f, some g), r.events⟩
            | none =>
                if s.scStatusIn.isSome && s.scSamples.isEmpty then
                  ⟨0, { s with outStatus := s.scStatusIn },
                    some (f.nb_samples, f.nb_samples), none, []⟩
                else if s.outWanted then
                  ⟨0, { s with scWanted := true },
                    some (f.nb_samples, f.nb_samples), none, []⟩
                else
                  ⟨0, s, some (f.nb_samples, f.nb_samples), none, []⟩
          else
            let r := filter_frame o s f s.sc
            ⟨r.ret, r.st, none, some (f, s.sc), r.events⟩
      | none =>
          if s.mainStatusIn.isSome && s.mainFifo.isEmpty then
            ⟨0, { s with outStatus := s.mainStatusIn }, none, none, []⟩
          else if s.outWanted then
            ⟨0, { s with mainWanted := true }, none, none, []⟩
          else
            ⟨FFERROR_NOT_READY, s, none, none, []⟩

/-- Iterated activation: the node state after `k` consecutive activations
with no intervening external events. -/
def activateN (o : Oracle) : Nat → Node → Node
  | 0, s => s
  | k + 1, s => activateN o k (activate o s).st

/-- Shallow embedding of `get_coef`: the millisecond time constant to
single-pole coefficient conversion. -/
noncomputable def get_coef (x sr : ℝ) : ℝ :=
  1 - Real.exp (-1 / (0.001 * x * sr))

/-- Allocation oracle for `config_output`: whether the `ChannelContext`
array calloc succeeds and whether each channel's two ring-buffer callocs
succeed. -/
structure AllocOracle where
  ccOk : Bool
  queueOk : Nat → Bool
  dqueueOk : Nat → Bool

/-- The always-succeeding allocation oracle. -/
def allOk : AllocOracle := ⟨true, fun _ => true, fun _ => true⟩

/-- The configured state produced by `config_output`: negotiated format,
channel count, the per-channel records, and the selected implementation
pair. -/
structure OutCfg where
  format : SampleFmt
  nb_channels : Nat
  cc : List ChannelContext
  impl : FilterImpl

/-- The implementation pair `config_output` installs for a format. -/
def impl_for : SampleFmt → FilterImpl
  | SampleFmt.dblp => FilterImpl.dbl
  | SampleFmt.fltp => FilterImpl.flt

/-- The per-channel allocation loop of `config_output`: for each channel
allocate the two one-second ring buffers, failing with `AVERROR_ENOMEM`
as soon as either calloc fails. -/
def alloc_channels (a : AllocOracle) (sample_rate : Nat) :
    List Nat → Except Int (List ChannelContext)
  | [] => Except.ok []
  | ch :: rest =>
      if a.queueOk ch && a.dqueueOk ch then
        match alloc_channels a sample_rate rest with
        | Except.ok l => Except.ok (zeroChannel sample_rate :: l)
        | Except.error e => Except.error e
      else Except.error AVERROR_ENOMEM

/-- Shallow embedding of `config_output`: record the negotiated format,
allocate one `ChannelContext` per negotiated channel (failing with
`AVERROR_ENOMEM` when the calloc fails), select the implementation pair
from the format, and allocate each channel's two ring buffers with
capacity `sample_rate`. -/
def config_output (a : AllocOracle) (nb_channels sample_rate : Nat)
    (fmt : SampleFmt) : Except Int OutCfg :=
  if a.ccOk then
    match alloc_channels a sample_rate (List.range nb_channels) with
    | Except.ok l => Except.ok ⟨fmt, nb_channels, l, impl_for fmt⟩
    | Except.error e => Except.error e
  else Except.error AVERROR_ENOMEM

/-- Shallow embedding of `uninit`: free the held frames, every channel's
ring buffers and the channel array. -/
def uninit (s : Node) : Node :=
  { s with inF := none, sc := none, cc := [] }

/-- The format lists of `query_formats`, indexed by the precision option
exactly as in the static `sample_fmts` table: row 0 (auto) admits both
planar float formats, row 1 only single precision, row 2 only double
precision. -/
def sample_fmts : Fin 3 → List SampleFmt
  | 0 => [SampleFmt.fltp, SampleFmt.dblp]
  | 1 => [SampleFmt.fltp]
  | 2 => [SampleFmt.dblp]

/-- Shallow embedding of `query_formats`: the set of sample formats
offered for negotiation, selected by the precision option. -/
def query_formats (precision : Fin 3) : List SampleFmt :=
  sample_fmts precision

end ADynEq

namespace ADynEq

theorem exp_neg_inv_lt {a b : ℝ} (ha : 0 < a) (hab : a < b) :
    Real.exp (-1 / a) < Real.exp (-1 / b) := by
  apply Real.exp_lt_exp.mpr
  have h := one_div_lt_one_div_of_lt ha hab
  rw [neg_div, neg_div]
  exact neg_lt_neg h

/-- C2: the claim asserts the coefficient is strictly increasing in the
sample rate; the code refutes it: at t = 1 ms the coefficient at
sr = 2000 is strictly below the coefficient at sr = 1000, so it is not
increasing in sr. -/
theorem c2_counterexample :
    ¬ (get_coef 1 1000 < get_coef 1 2000) ∧ get_coef 1 2000 < get_coef 1 1000 := by
  have h : get_coef 1 2000 < get_coef 1 1000 := by
    unfold get_coef
    have h1 : (0.001 : ℝ) * 1 * 1000 = 1 := by norm_num
    have h2 : (0.001 : ℝ) * 1 * 2000 = 2 := by norm_num
    rw [h1, h2]
    have h3 := Real.exp_lt_exp.mpr (show (-1 : ℝ) / 1 < -1 / 2 by norm_num)
    linarith
  exact ⟨fun hcon => absurd hcon (lt_asymm h), h⟩

/-- C2 (amended): for attack/release times in [0.01, 2000] ms and any
positive sample rate, `get_coef` equals `1 - exp (-1/(0.001 t sr))`, lies
strictly in (0, 1), and is strictly decreasing in the sample rate (not
increasing, as claimed) and strictly decreasing in the time constant. -/
theorem c2_coef_props (t u sr sr2 : ℝ)
    (ht0 : 0.01 ≤ t) (ht1 : t ≤ 2000) (hu0 : 0.01 ≤ u) (hu1 : u ≤ 2000)
    (hsr : 0 < sr) (hsr2 : 0 < sr2) (hsrlt : sr < sr2) (htu : t < u) :
    get_coef t sr = 1 - Real.exp (-1 / (0.001 * t * sr)) ∧
    0 < get_coef t sr ∧ get_coef t sr < 1 ∧
    get_coef t sr2 < get_coef t sr ∧
    get_coef u sr < get_coef t sr := by
  have ht : 0 < t := lt_of_lt_of_le (by norm_num) ht0
  have hu : 0 < u := lt_of_lt_of_le (by norm_num) hu0
  have hc : 0 < 0.001 * t * sr := by positivity
  refine ⟨rfl, ?_, ?_, ?_, ?_⟩
  · have hlt1 : Real.exp (-1 / (0.001 * t * sr)) < 1 :=
      Real.exp_lt_one_iff.mpr (div_neg_of_neg_of_pos (by norm_num) hc)
    unfold get_coef
    linarith
  · have hpos := Real.exp_pos (-1 / (0.001 * t * sr))
    unfold get_coef
    linarith
  · have hlt : 0.001 * t * sr < 0.001 * t * sr2 :=
      mul_lt_mul_of_pos_left hsrlt (by positivity)
    have hexp := exp_neg_inv_lt hc hlt
    unfold get_coef
    linarith
  · have hlt : 0.001 * t * sr < 0.001 * u * sr := by
      have h1 : (0.001 : ℝ) * t < 0.001 * u := by linarith
      exact mul_lt_mul_of_pos_right h1 hsr
    have hexp := exp_neg_inv_lt hc hlt
    unfold get_coef
    linarith

/-- C2 witness: the amended theorem instantiated at t = 20 ms, u = 200 ms,
sr = 44100, sr2 = 48000. -/
theorem c2_coef_props_witness :
    0 < get_coef 20 44100 ∧ get_coef 20 44100 < 1 ∧
    get_coef 20 48000 < get_coef 20 44100 ∧
    get_coef 200 44100 < get_coef 20 44100 := by
  have h := c2_coef_props 20 200 44100 48000 (by norm_num) (by norm_num)
    (by norm_num) (by norm_num) (by norm_num) (by norm_num) (by norm_num)
    (by norm_num)
  exact ⟨h.2.1, h.2.2.1, h.2.2.2.1, h.2.2.2.2⟩

end ADynEq

namespace ADynEq

theorem consume_main_of_held (s : Node) (f : AVFrame) (h : s.inF = some f) :
    consume_main s = s := by
  unfold consume_main
  rw [h]
  simp

theorem consume_samples_short (q : List Int) (n : Nat) (h : q.length < n) :
    consume_samples q n n = none := by
  unfold consume_samples
  have hmin : min n q.length < n := by omega
  simp only []
  rw [if_neg (by omega)]

theorem c1_step (o : Oracle) (s : Node) (f : AVFrame)
    (h1 : s.sidechain = true) (h2 : s.inF = some f) (h3 : s.sc = none)
    (h4 : s.outDownStatus = none) (h5 : s.scSamples.length < f.nb_samples)
    (h6 : s.scStatusIn = none) :
    (activate o s).ret = 0 ∧
    (activate o s).st.sidechain = true ∧
    (activate o s).st.inF = some f ∧
    (activate o s).st.sc = none ∧
    (activate o s).st.outDownStatus = none ∧
    (activate o s).st.scSamples = s.scSamples ∧
    (activate o s).st.scStatusIn = none ∧
    (activate o s).st.outPushed = s.outPushed := by
  have hcm := consume_main_of_held s f h2
  have hcs := consume_samples_short s.scSamples f.nb_samples h5
  by_cases hw : s.outWanted <;>
    simp [activate, h4, hcm, h2, h1, h3, h6, hcs, hw]

theorem c1_inv (o : Oracle) (f : AVFrame) (ss : List Int) (ps : List AVFrame)
    (hlen : ss.length < f.nb_samples) :
    ∀ k (s : Node), s.sidechain = true → s.inF = some f → s.sc = none →
      s.outDownStatus = none → s.scSamples = ss → s.scStatusIn = none →
      s.outPushed = ps →
      (activateN o k s).sidechain = true ∧ (activateN o k s).inF = some f ∧
      (activateN o k s).sc = none ∧ (activateN o k s).outDownStatus = none ∧
      (activateN o k s).scSamples = ss ∧ (activateN o k s).scStatusIn = none ∧
      (activateN o k s).outPushed = ps := by
  intro k
  induction k with
  | zero =>
      intro s hs1 hs2 hs3 hs4 hs5 hs6 hs7
      exact ⟨hs1, hs2, hs3, hs4, hs5, hs6, hs7⟩
  | succ k ih =>
      intro s hs1 hs2 hs3 hs4 hs5 hs6 hs7
      have hstep := c1_step o s f hs1 hs2 hs3 hs4 (by rw [hs5] at *; exact hlen) hs6
      have h := ih (activate o s).st hstep.2.1 hstep.2.2.1 hstep.2.2.2.1
        hstep.2.2.2.2.1 (by rw [hstep.2.2.2.2.2.1, hs5])
        hstep.2.2.2.2.2.2.1 (by rw [hstep.2.2.2.2.2.2.2, hs7])
      simpa [activateN] using h

/-- C1 (amended): with sidechain enabled, a main frame held, no status
set by the downstream, and the sidechain link unable to supply the
required samples (and no sidechain status pending), every activation
keeps the main frame held, emits no output, and returns 0 — deferral
without progress, not the `FFERROR_NOT_READY` code (NotReady is returned
only when no main frame is held); this persists across any number of
repeated activations while no sidechain data arrives. -/
theorem c1_holds_frame (o : Oracle) (s : Node) (f : AVFrame)
    (h1 : s.sidechain = true) (h2 : s.inF = some f) (h3 : s.sc = none)
    (h4 : s.outDownStatus = none) (h5 : s.scSamples.length < f.nb_samples)
    (h6 : s.scStatusIn = none) :
    ∀ k, (activateN o k s).inF = some f ∧
      (activateN o k s).outPushed = s.outPushed ∧
      (activate o (activateN o k s)).ret = 0 ∧
      (activate o (activateN o k s)).ret ≠ FFERROR_NOT_READY := by
  intro k
  obtain ⟨i1, i2, i3, i4, i5, i6, i7⟩ :=
    c1_inv o f s.scSamples s.outPushed h5 k s h1 h2 h3 h4 rfl h6 rfl
  have hstep := c1_step o _ f i1 i2 i3 i4 (by rw [i5]; exact h5) i6
  refine ⟨i2, i7, hstep.1, ?_⟩
  rw [hstep.1]
  unfold FFERROR_NOT_READY
  decide

/-- A concrete environment: allocation succeeds, four worker threads, and
the channel body passes the payload through. -/
def cexOracle : Oracle := ⟨true, 4, fun d _ => d⟩

/-- A concrete held main frame of four samples. -/
def cexFrame : AVFrame := ⟨4, true, 0, [1, 2, 3, 4]⟩

/-- A concrete node: sidechain enabled, the main frame held, and an empty
sidechain queue that never receives data. -/
def cexNode : Node :=
  ⟨true, some cexFrame, none, [], none, none, false, [], none, none, false,
    [], none, none, false, 1, [], FilterImpl.dbl⟩

/-- C1 counterexample: in exactly the claimed scenario (sidechain
enabled, main frame held, sidechain unable to supply the samples) the
activation returns 0, not the NotReady code, while holding the frame and
emitting nothing — so the claim that it returns NotReady is false. -/
theorem c1_counterexample :
    (activate cexOracle cexNode).ret = 0 ∧
    (activate cexOracle cexNode).ret ≠ FFERROR_NOT_READY ∧
    (activate cexOracle cexNode).st.inF = some cexFrame ∧
    (activate cexOracle cexNode).st.outPushed = [] := by
  exact ⟨rfl, by decide, rfl, rfl⟩

/-- C1 witness: the amended theorem at the concrete node, three
activations deep. -/
theorem c1_holds_frame_witness :
    (activateN cexOracle 3 cexNode).inF = some cexFrame ∧
    (activateN cexOracle 3 cexNode).outPushed = [] ∧
    (activate cexOracle (activateN cexOracle 3 cexNode)).ret = 0 := by
  have h := c1_holds_frame cexOracle cexNode cexFrame rfl rfl rfl rfl
    (by decide) rfl 3
  exact ⟨h.1, h.2.1, h.2.2.1⟩

end ADynEq

namespace ADynEq

theorem consume_samples_exact (q : List Int) (n : Nat) (g : AVFrame)
    (rest : List Int) (h : consume_samples q n n = some (g, rest)) :
    g.nb_samples = n := by
  unfold consume_samples at h
  simp only [] at h
  split at h
  · rename_i hle
    injection h with h1
    injection h1 with hg hrest
    rw [← hg]
    simp only []
    omega
  · exact absurd h (by simp)

/-- C3: with sidechain enabled, a main frame of n samples held and no
sidechain frame yet, the activation requests exactly n samples from the
sidechain link (minimum = maximum = n); any sidechain frame handed to the
processing call has exactly n samples; and when fewer than n samples are
queued the step defers — the main frame stays held, nothing is pushed,
and no processing call is made. -/
theorem c3_exact_request (o : Oracle) (s : Node) (f : AVFrame)
    (h1 : s.sidechain = true) (h2 : s.inF = some f) (h3 : s.sc = none)
    (h4 : s.outDownStatus = none) :
    (activate o s).scReq = some (f.nb_samples, f.nb_samples) ∧
    (∀ a b, (activate o s).ffCall = some (a, b) →
      a = f ∧ ∀ g, b = some g → g.nb_samples = f.nb_samples) ∧
    (s.scSamples.length < f.nb_samples →
      (activate o s).ret = 0 ∧ (activate o s).st.inF = some f ∧
      (activate o s).st.outPushed = s.outPushed ∧
      (activate o s).ffCall = none) := by
  have hcm := consume_main_of_held s f h2
  refine ⟨?_, ?_, ?_⟩
  · rcases hq : consume_samples s.scSamples f.nb_samples f.nb_samples with _ | ⟨g, rest⟩
    · by_cases ha : s.scStatusIn.isSome && s.scSamples.isEmpty <;>
        by_cases hw : s.outWanted <;>
          simp [activate, h4, hcm, h2, h1, h3, hq, ha, hw]
    · simp [activate, h4, hcm, h2, h1, h3, hq]
  · intro a b hcall
    rcases hq : consume_samples s.scSamples f.nb_samples f.nb_samples with _ | ⟨g, rest⟩
    · by_cases ha : s.scStatusIn.isSome && s.scSamples.isEmpty <;>
        by_cases hw : s.outWanted <;>
          simp [activate, h4, hcm, h2, h1, h3, hq, ha, hw] at hcall
    · simp [activate, h4, hcm, h2, h1, h3, hq] at hcall
      obtain ⟨hfa, hb⟩ := hcall
      refine ⟨hfa.symm, ?_⟩
      intro g2 hg2
      rw [← hb] at hg2
      injection hg2 with hg2
      rw [← hg2]
      exact consume_samples_exact _ _ _ _ hq
  · intro hshort
    have hq := consume_samples_short s.scSamples f.nb_samples hshort
    by_cases ha : s.scStatusIn.isSome && s.scSamples.isEmpty <;>
      by_cases hw : s.outWanted <;>
        simp [activate, h4, hcm, h2, h1, h3, hq, ha, hw]

/-- C3 witness: the theorem at the concrete node with an empty sidechain
queue and a held four-sample main frame. -/
theorem c3_exact_request_witness :
    (activate cexOracle cexNode).scReq = some (4, 4) ∧
    (activate cexOracle cexNode).st.inF = some cexFrame := by
  have h := c3_exact_request cexOracle cexNode cexFrame rfl rfl rfl rfl
  exact ⟨h.1, (h.2.2 (by decide)).2.1⟩

/-- C4: for every successfully processed frame, the writable input is
mutated in place (the output is the input frame with only its payload
rewritten, properties untouched); otherwise a fresh buffer of the same
sample count is produced, the input frame properties are copied to it,
and the input is freed; in both cases both held-frame slots are cleared,
the sidechain frame is released, and the output is pushed downstream. -/
theorem c4_frame_effect (o : Oracle) (s : Node) (inF : AVFrame)
    (sc : Option AVFrame) (h : inF.writable = true ∨ o.allocOk = true) :
    ∃ out, (filter_frame o s inF sc).ret = 0 ∧
      (filter_frame o s inF sc).st.inF = none ∧
      (filter_frame o s inF sc).st.sc = none ∧
      (filter_frame o s inF sc).st.outPushed = s.outPushed ++ [out] ∧
      out.nb_samples = inF.nb_samples ∧
      out.props = inF.props ∧
      (inF.writable = true →
        out = { inF with data := o.proc inF.data (Option.map AVFrame.data sc) }) ∧
      (inF.writable = false → out.writable = true ∧
        Ev.freeIn ∈ (filter_frame o s inF sc).events) ∧
      Ev.freeSc ∈ (filter_frame o s inF sc).events ∧
      Ev.push ∈ (filter_frame o s inF sc).events := by
  by_cases hwr : inF.writable
  · exact ⟨{ inF with data := o.proc inF.data (Option.map AVFrame.data sc) },
      by simp [filter_frame, hwr]⟩
  · have hal : o.allocOk = true := by
      rcases h with h | h
      · exact absurd h hwr
      · exact h
    exact ⟨⟨inF.nb_samples, true, inF.props, o.proc inF.data (Option.map AVFrame.data sc)⟩,
      by simp [filter_frame, hwr, hal]⟩

/-- C4 witness: the theorem at a concrete writable frame. -/
theorem c4_frame_effect_witness :
    (filter_frame cexOracle cexNode cexFrame none).ret = 0 ∧
    (filter_frame cexOracle cexNode cexFrame none).st.inF = none := by
  obtain ⟨out, h0, h1, _⟩ := c4_frame_effect cexOracle cexNode cexFrame none (Or.inl rfl)
  exact ⟨h0, h1⟩

end ADynEq

namespace ADynEq

theorem alloc_channels_err (a : AllocOracle) (sr : Nat) :
    ∀ l : List Nat, (∃ ch ∈ l, a.queueOk ch = false ∨ a.dqueueOk ch = false) →
      alloc_channels a sr l = Except.error AVERROR_ENOMEM := by
  intro l
  induction l with
  | nil => simp
  | cons ch rest ih =>
      intro hex
      obtain ⟨c, hc, hbad⟩ := hex
      by_cases hg : a.queueOk ch && a.dqueueOk ch
      · have hrest : ∃ c2 ∈ rest, a.queueOk c2 = false ∨ a.dqueueOk c2 = false := by
          rcases List.mem_cons.mp hc with rfl | hmem
          · rcases hbad with hb | hb <;>
              simp [hb] at hg
          · exact ⟨c, hmem, hbad⟩
        simp [alloc_channels, hg, ih hrest]
      · simp [alloc_channels, hg]

/-- C5: an output-buffer allocation failure in `filter_frame` (input not
writable, allocator refusing) frees the input frame, performs no
preparation, fan-out, or push, leaves the downstream queue untouched, and
returns `AVERROR_ENOMEM`; and `config_output` returns `AVERROR_ENOMEM`
both when the channel-array calloc fails and when any channel ring-buffer
calloc fails. -/
theorem c5_enomem (o : Oracle) (s : Node) (inF : AVFrame) (sc : Option AVFrame)
    (a : AllocOracle) (nb sr : Nat) (fmt : SampleFmt)
    (hw : inF.writable = false) (ha : o.allocOk = false) :
    ((filter_frame o s inF sc).ret = AVERROR_ENOMEM ∧
      (filter_frame o s inF sc).st.outPushed = s.outPushed ∧
      Ev.freeIn ∈ (filter_frame o s inF sc).events ∧
      Ev.prep ∉ (filter_frame o s inF sc).events ∧
      (∀ j, Ev.exec j ∉ (filter_frame o s inF sc).events) ∧
      Ev.push ∉ (filter_frame o s inF sc).events) ∧
    (a.ccOk = false → config_output a nb sr fmt = Except.error AVERROR_ENOMEM) ∧
    ((∃ ch, ch < nb ∧ (a.queueOk ch = false ∨ a.dqueueOk ch = false)) →
      config_output a nb sr fmt = Except.error AVERROR_ENOMEM) := by
  refine ⟨?_, ?_, ?_⟩
  · simp [filter_frame, hw, ha]
  · intro hcc
    simp [config_output, hcc]
  · intro hex
    obtain ⟨ch, hlt, hbad⟩ := hex
    have herr := alloc_channels_err a sr (List.range nb)
      ⟨ch, List.mem_range.mpr hlt, hbad⟩
    by_cases hcc : a.ccOk <;>
      simp [config_output, hcc, herr]

/-- An environment whose output-buffer allocation fails. -/
def noMemOracle : Oracle := ⟨false, 4, fun d _ => d⟩

/-- A held input frame with other referents (not writable). -/
def sharedFrame : AVFrame := ⟨4, false, 7, [1, 2, 3, 4]⟩

/-- An allocation oracle whose channel-array calloc fails. -/
def noMemAlloc : AllocOracle := ⟨false, fun _ => true, fun _ => true⟩

/-- C5 witness: the theorem at a concrete non-writable frame with a
failing allocator, and a failing configuration allocation. -/
theorem c5_enomem_witness :
    (filter_frame noMemOracle cexNode sharedFrame none).ret = AVERROR_ENOMEM ∧
    config_output noMemAlloc 2 8 SampleFmt.fltp = Except.error AVERROR_ENOMEM := by
  have h := c5_enomem noMemOracle cexNode sharedFrame none noMemAlloc 2 8
    SampleFmt.fltp rfl rfl
  exact ⟨h.1.1, h.2.1 rfl⟩

/-- C6: every successfully processed frame runs the preparation pass
exactly once, before the channel fan-out, and the fan-out is submitted
with job count `min nb_channels nb_threads`; no second preparation or
fan-out happens in the same call. -/
theorem c6_dispatch (o : Oracle) (s : Node) (inF : AVFrame)
    (sc : Option AVFrame) (h : inF.writable = true ∨ o.allocOk = true) :
    ∃ rest, (filter_frame o s inF sc).events =
        Ev.prep :: Ev.exec (min s.nb_channels o.nb_threads) :: rest ∧
      Ev.prep ∉ rest ∧ ∀ j, Ev.exec j ∉ rest := by
  by_cases hwr : inF.writable
  · refine ⟨[Ev.freeSc, Ev.push], by simp [filter_frame, hwr], by simp, ?_⟩
    intro j
    simp
  · have hal : o.allocOk = true := by
      rcases h with h | h
      · exact absurd h hwr
      · exact h
    refine ⟨[Ev.freeIn, Ev.freeSc, Ev.push], by simp [filter_frame, hwr, hal],
      by simp, ?_⟩
    intro j
    simp

/-- C6 witness: the theorem at the concrete node (one channel, four
worker threads, so one job). -/
theorem c6_dispatch_witness :
    ∃ rest, (filter_frame cexOracle cexNode cexFrame none).events =
      Ev.prep :: Ev.exec (min 1 4) :: rest := by
  obtain ⟨rest, hr, _, _⟩ := c6_dispatch cexOracle cexNode cexFrame none (Or.inl rfl)
  exact ⟨rest, hr⟩

end ADynEq

namespace ADynEq

theorem filter_frame_st_cc (o : Oracle) (s : Node) (inF : AVFrame)
    (sc : Option AVFrame) : (filter_frame o s inF sc).st.cc = s.cc := by
  by_cases hwr : inF.writable
  · simp [filter_frame, hwr]
  · by_cases hal : o.allocOk <;> simp [filter_frame, hwr, hal]

theorem filter_frame_st_impl (o : Oracle) (s : Node) (inF : AVFrame)
    (sc : Option AVFrame) : (filter_frame o s inF sc).st.impl = s.impl := by
  by_cases hwr : inF.writable
  · simp [filter_frame, hwr]
  · by_cases hal : o.allocOk <;> simp [filter_frame, hwr, hal]

theorem consume_main_cc_impl (s : Node) :
    (consume_main s).cc = s.cc ∧ (consume_main s).impl = s.impl := by
  unfold consume_main
  by_cases h : s.inF.isNone
  · cases hf : s.mainFifo <;> simp [h, hf]
  · simp [h]

theorem activate_cc_impl (o : Oracle) (s0 : Node) :
    (activate o s0).st.cc = s0.cc ∧ (activate o s0).st.impl = s0.impl := by
  have hcm := consume_main_cc_impl s0
  cases hd : s0.outDownStatus with
  | some c => simp [activate, hd]
  | none =>
      cases hin : (consume_main s0).inF with
      | none =>
          by_cases ha : (consume_main s0).mainStatusIn.isSome &&
              (consume_main s0).mainFifo.isEmpty <;>
            by_cases hw : (consume_main s0).outWanted <;>
              simp [activate, hd, hin, ha, hw, hcm.1, hcm.2]
      | some f =>
          by_cases hside : (consume_main s0).sidechain && (consume_main s0).sc.isNone
          · cases hq : consume_samples (consume_main s0).scSamples f.nb_samples
                f.nb_samples with
            | some p =>
                simp [activate, hd, hin, hside, hq, filter_frame_st_cc,
                  filter_frame_st_impl, hcm.1, hcm.2]
            | none =>
                by_cases ha : (consume_main s0).scStatusIn.isSome &&
                    (consume_main s0).scSamples.isEmpty <;>
                  by_cases hw : (consume_main s0).outWanted <;>
                    simp [activate, hd, hin, hside, hq, ha, hw, hcm.1, hcm.2]
          · simp [activate, hd, hin, hside, filter_frame_st_cc,
              filter_frame_st_impl, hcm.1, hcm.2]

theorem activateN_cc_impl (o : Oracle) :
    ∀ (k : Nat) (s : Node),
      (activateN o k s).cc = s.cc ∧ (activateN o k s).impl = s.impl := by
  intro k
  induction k with
  | zero => intro s; simp [activateN]
  | succ k ih =>
      intro s
      have h1 := activate_cc_impl o s
      have h2 := ih (activate o s).st
      simp only [activateN]
      exact ⟨h2.1.trans h1.1, h2.2.trans h1.2⟩

theorem alloc_channels_ok_shape (a : AllocOracle) (sr : Nat) :
    ∀ (l : List Nat) (cs : List ChannelContext),
      alloc_channels a sr l = Except.ok cs →
      cs.length = l.length ∧
      ∀ c ∈ cs, c.queue.length = sr ∧ c.dqueue.length = sr := by
  intro l
  induction l with
  | nil =>
      intro cs h
      simp [alloc_channels] at h
      subst h
      simp
  | cons ch rest ih =>
      intro cs h
      unfold alloc_channels at h
      by_cases hg : a.queueOk ch && a.dqueueOk ch
      · rw [if_pos hg] at h
        cases hq : alloc_channels a sr rest with
        | ok l2 =>
            rw [hq] at h
            injection h with h
            obtain ⟨ih1, ih2⟩ := ih l2 hq
            constructor
            · rw [← h]
              simp [ih1]
            · intro c hc
              rw [← h] at hc
              rcases List.mem_cons.mp hc with rfl | hmem
              · simp [zeroChannel]
              · exact ih2 c hmem
        | error e =>
            rw [hq] at h
            cases h
      · rw [if_neg hg] at h
        cases h

theorem config_output_ok (a : AllocOracle) (nb sr : Nat) (fmt : SampleFmt)
    (cfg : OutCfg) (h : config_output a nb sr fmt = Except.ok cfg) :
    cfg.cc.length = nb ∧
    (∀ c ∈ cfg.cc, c.queue.length = sr ∧ c.dqueue.length = sr) ∧
    cfg.format = fmt ∧ cfg.nb_channels = nb ∧ cfg.impl = impl_for fmt := by
  unfold config_output at h
  by_cases hcc : a.ccOk
  · rw [if_pos hcc] at h
    cases hq : alloc_channels a sr (List.range nb) with
    | ok l =>
        rw [hq] at h
        injection h with h
        obtain ⟨h1, h2⟩ := alloc_channels_ok_shape a sr (List.range nb) l hq
        rw [← h]
        exact ⟨by simp [h1], h2, rfl, rfl, rfl⟩
    | error e =>
        rw [hq] at h
        cases h
  · rw [if_neg hcc] at h
    cases h

theorem alloc_channels_allOk (sr : Nat) :
    ∀ l : List Nat,
      alloc_channels allOk sr l =
        Except.ok (List.replicate l.length (zeroChannel sr)) := by
  intro l
  induction l with
  | nil => simp [alloc_channels]
  | cons ch rest ih =>
      unfold alloc_channels
      rw [ih]
      simp [allOk, List.replicate_succ]

theorem config_output_allOk (nb sr : Nat) (fmt : SampleFmt) :
    config_output allOk nb sr fmt =
      Except.ok ⟨fmt, nb, List.replicate nb (zeroChannel sr), impl_for fmt⟩ := by
  unfold config_output
  rw [alloc_channels_allOk sr (List.range nb)]
  simp [allOk]

/-- C7: a successful `config_output` yields one `ChannelContext` per
negotiated channel, each with exactly two ring buffers of capacity
`sample_rate` entries; the channel state is never touched by any number
of activations, and is freed exactly by `uninit`. -/
theorem c7_channel_state (a : AllocOracle) (nb sr : Nat) (fmt : SampleFmt)
    (cfg : OutCfg) (o : Oracle) (s : Node) (k : Nat)
    (h : config_output a nb sr fmt = Except.ok cfg) :
    cfg.cc.length = nb ∧
    (∀ c ∈ cfg.cc, c.queue.length = sr ∧ c.dqueue.length = sr) ∧
    (activateN o k s).cc = s.cc ∧
    (uninit s).cc = [] := by
  obtain ⟨h1, h2, _⟩ := config_output_ok a nb sr fmt cfg h
  exact ⟨h1, h2, (activateN_cc_impl o k s).1, rfl⟩

/-- C7 witness: a concrete successful configuration with two channels and
ring capacity eight, iterated activation leaving the channel state of the
concrete node untouched. -/
theorem c7_channel_state_witness :
    ∃ cfg, config_output allOk 2 8 SampleFmt.dblp = Except.ok cfg ∧
      cfg.cc.length = 2 ∧ (activateN cexOracle 2 cexNode).cc = cexNode.cc := by
  have h := config_output_allOk 2 8 SampleFmt.dblp
  have hc := c7_channel_state allOk 2 8 SampleFmt.dblp _ cexOracle cexNode 2 h
  exact ⟨_, h, hc.1, hc.2.2.1⟩

/-- C8: format negotiation offers exactly the planar float formats the
precision option admits (auto: both; float: single only; double: double
only); configuration installs the float implementation pair for planar
single precision and the double pair for planar double precision; and the
installed pair is never changed by any number of activations. -/
theorem c8_format_dispatch (a : AllocOracle) (nb sr : Nat) (fmt : SampleFmt)
    (cfg : OutCfg) (o : Oracle) (s : Node) (k : Nat)
    (h : config_output a nb sr fmt = Except.ok cfg) :
    query_formats 0 = [SampleFmt.fltp, SampleFmt.dblp] ∧
    query_formats 1 = [SampleFmt.fltp] ∧
    query_formats 2 = [SampleFmt.dblp] ∧
    cfg.format = fmt ∧ cfg.impl = impl_for fmt ∧
    impl_for SampleFmt.fltp = FilterImpl.flt ∧
    impl_for SampleFmt.dblp = FilterImpl.dbl ∧
    (activateN o k s).impl = s.impl := by
  obtain ⟨_, _, h3, _, h5⟩ := config_output_ok a nb sr fmt cfg h
  exact ⟨rfl, rfl, rfl, h3, h5, rfl, rfl, (activateN_cc_impl o k s).2⟩

/-- C8 witness: the theorem at a concrete double-precision configuration
and two activations of the concrete node. -/
theorem c8_format_dispatch_witness :
    ∃ cfg, config_output allOk 1 8 SampleFmt.fltp = Except.ok cfg ∧
      cfg.impl = FilterImpl.flt ∧
      (activateN cexOracle 2 cexNode).impl = cexNode.impl := by
  have h := config_output_allOk 1 8 SampleFmt.fltp
  have hc := c8_format_dispatch allOk 1 8 SampleFmt.fltp _ cexOracle cexNode 2 h
  exact ⟨_, h, hc.2.2.2.2.1, hc.2.2.2.2.2.2.2⟩

end ADynEq

namespace ADynEq

/-- The `FilterModes` enumeration values of the source. -/
def LISTEN : Int := -1

/-- Mode value `CUT_BELOW`. -/
def CUT_BELOW : Int := 0

/-- Mode value `CUT_ABOVE`. -/
def CUT_ABOVE : Int := 1

/-- Mode value `BOOST_BELOW`. -/
def BOOST_BELOW : Int := 2

/-- Mode value `BOOST_ABOVE`. -/
def BOOST_ABOVE : Int := 3

/-- One past the last filter mode. -/
def NB_FMODES : Int := 4

/-- Detection mode value `DET_DISABLED`. -/
def DET_DISABLED : Int := 1

/-- Detection mode value `DET_OFF`. -/
def DET_OFF : Int := 2

/-- Detection mode value `DET_ON`. -/
def DET_ON : Int := 3

/-- Detection mode value `DET_ADAPTIVE`. -/
def DET_ADAPTIVE : Int := 4

/-- One past the last detection mode. -/
def NB_DMODES : Int := 5

/-- A double-valued scalar entry of the option table: name, default,
minimum, maximum.  The double-typed bounds are embedded as rationals. -/
structure ScalarOpt where
  name : String
  dflt : Rat
  minv : Rat
  maxv : Rat

/-- An int-valued entry of the option table with its named unit
constants. -/
structure IntOpt where
  name : String
  dflt : Int
  minv : Int
  maxv : Int
  consts : List (String × Int)

/-- The scalar rows of `adynamicequalizer_options`, in source order. -/
def adynamicequalizer_scalar_options : List ScalarOpt :=
  [⟨"threshold", 0, 0, 100⟩,
   ⟨"dfrequency", 1000, 2, 1000000⟩,
   ⟨"dqfactor", 1, 1/1000, 1000⟩,
   ⟨"tfrequency", 1000, 2, 1000000⟩,
   ⟨"tqfactor", 1, 1/1000, 1000⟩,
   ⟨"attack", 20, 1/100, 2000⟩,
   ⟨"release", 200, 1/100, 2000⟩,
   ⟨"ratio", 1, 0, 30⟩,
   ⟨"makeup", 0, 0, 1000⟩,
   ⟨"range", 50, 1, 2000⟩]

/-- The declared range of a scalar option, by name. -/
def scalarRange (n : String) : Option (Rat × Rat) :=
  (adynamicequalizer_scalar_options.find? fun o => o.name == n).map
    fun o => (o.minv, o.maxv)

/-- The `mode` row with its unit constants. -/
def mode_opt : IntOpt :=
  ⟨"mode", 0, LISTEN, NB_FMODES - 1,
    [("listen", LISTEN), ("cutbelow", CUT_BELOW), ("cutabove", CUT_ABOVE),
     ("boostbelow", BOOST_BELOW), ("boostabove", BOOST_ABOVE)]⟩

/-- The `dftype` row with its unit constants. -/
def dftype_opt : IntOpt :=
  ⟨"dftype", 0, 0, 3,
    [("bandpass", 0), ("lowpass", 1), ("highpass", 2), ("peak", 3)]⟩

/-- The `tftype` row with its unit constants. -/
def tftype_opt : IntOpt :=
  ⟨"tftype", 0, 0, 2, [("bell", 0), ("lowshelf", 1), ("highshelf", 2)]⟩

/-- The `auto` (detection mode) row with its unit constants. -/
def auto_opt : IntOpt :=
  ⟨"auto", DET_OFF, DET_DISABLED, NB_DMODES - 1,
    [("disabled", DET_DISABLED), ("off", DET_OFF), ("on", DET_ON),
     ("adaptive", DET_ADAPTIVE)]⟩

/-- The `precision` row with its unit constants. -/
def precision_opt : IntOpt :=
  ⟨"precision", 0, 0, 2, [("auto", 0), ("float", 1), ("double", 2)]⟩

/-- The boolean `sidechain` row, embedded as an int range. -/
def sidechain_opt : IntOpt := ⟨"sidechain", 0, 0, 1, []⟩

/-- C9: every scalar option range equals the range the spec states, and
each enumerated option admits exactly the listed values: every integer
the declared [min, max] range accepts is one of the named constants and
conversely. -/
theorem c9_option_ranges :
    scalarRange "threshold" = some (0, 100) ∧
    scalarRange "dfrequency" = some (2, 1000000) ∧
    scalarRange "dqfactor" = some (1/1000, 1000) ∧
    scalarRange "tfrequency" = some (2, 1000000) ∧
    scalarRange "tqfactor" = some (1/1000, 1000) ∧
    scalarRange "attack" = some (1/100, 2000) ∧
    scalarRange "release" = some (1/100, 2000) ∧
    scalarRange "ratio" = some (0, 30) ∧
    scalarRange "makeup" = some (0, 1000) ∧
    scalarRange "range" = some (1, 2000) ∧
    mode_opt.consts.map Prod.fst =
      ["listen", "cutbelow", "cutabove", "boostbelow", "boostabove"] ∧
    (∀ v : Int, (mode_opt.minv ≤ v ∧ v ≤ mode_opt.maxv) ↔
      v ∈ mode_opt.consts.map Prod.snd) ∧
    dftype_opt.consts.map Prod.fst = ["bandpass", "lowpass", "highpass", "peak"] ∧
    (∀ v : Int, (dftype_opt.minv ≤ v ∧ v ≤ dftype_opt.maxv) ↔
      v ∈ dftype_opt.consts.map Prod.snd) ∧
    tftype_opt.consts.map Prod.fst = ["bell", "lowshelf", "highshelf"] ∧
    (∀ v : Int, (tftype_opt.minv ≤ v ∧ v ≤ tftype_opt.maxv) ↔
      v ∈ tftype_opt.consts.map Prod.snd) ∧
    auto_opt.consts.map Prod.fst = ["disabled", "off", "on", "adaptive"] ∧
    (∀ v : Int, (auto_opt.minv ≤ v ∧ v ≤ auto_opt.maxv) ↔
      v ∈ auto_opt.consts.map Prod.snd) ∧
    precision_opt.consts.map Prod.fst = ["auto", "float", "double"] ∧
    (∀ v : Int, (precision_opt.minv ≤ v ∧ v ≤ precision_opt.maxv) ↔
      v ∈ precision_opt.consts.map Prod.snd) := by
  refine ⟨rfl, rfl, rfl, rfl, rfl, rfl, rfl, rfl, rfl, rfl,
    rfl, ?_, rfl, ?_, rfl, ?_, rfl, ?_, rfl, ?_⟩ <;>
    · intro v
      simp [mode_opt, dftype_opt, tftype_opt, auto_opt, precision_opt,
        LISTEN, NB_FMODES, CUT_BELOW, CUT_ABOVE, BOOST_BELOW, BOOST_ABOVE,
        DET_DISABLED, DET_OFF, DET_ON, DET_ADAPTIVE, NB_DMODES]
      omega

theorem c10_step (o : Oracle) (s : Node) (c : Int)
    (h : s.outDownStatus = some c) :
    (activate o s).ret = 0 ∧
    (activate o s).st.mainOStatus = some c ∧
    (s.sidechain = true → (activate o s).st.scOStatus = some c) ∧
    (activate o s).st.sidechain = s.sidechain ∧
    (activate o s).st.mainFifo = s.mainFifo ∧
    (activate o s).st.scSamples = s.scSamples ∧
    (activate o s).st.inF = s.inF ∧
    (activate o s).st.sc = s.sc ∧
    (activate o s).st.outPushed = s.outPushed ∧
    (activate o s).st.outDownStatus = some c := by
  by_cases hside : s.sidechain <;> simp [activate, h, hside]

theorem c10_inv (o : Oracle) (c : Int) :
    ∀ (k : Nat) (s : Node), s.outDownStatus = some c →
      s.mainOStatus = some c → (s.sidechain = true → s.scOStatus = some c) →
      (activateN o k s).mainFifo = s.mainFifo ∧
      (activateN o k s).scSamples = s.scSamples ∧
      (activateN o k s).inF = s.inF ∧
      (activateN o k s).sc = s.sc ∧
      (activateN o k s).outPushed = s.outPushed ∧
      (activateN o k s).mainOStatus = some c ∧
      (s.sidechain = true → (activateN o k s).scOStatus = some c) := by
  intro k
  induction k with
  | zero =>
      intro s h1 h2 h3
      exact ⟨rfl, rfl, rfl, rfl, rfl, h2, h3⟩
  | succ k ih =>
      intro s h1 h2 h3
      obtain ⟨r0, rMain, rScImp, rSide, rFifo, rSamp, rInF, rSc, rPush, rDown⟩ :=
        c10_step o s c h1
      obtain ⟨p1, p2, p3, p4, p5, p6, p7⟩ :=
        ih (activate o s).st rDown rMain (fun hh => rScImp (rSide.symm.trans hh))
      exact ⟨p1.trans rFifo, p2.trans rSamp, p3.trans rInF, p4.trans rSc,
        p5.trans rPush, p6, fun hh => p7 (rSide.trans hh)⟩

/-- C10: once the downstream has set a status on the output link, every
subsequent activation propagates it back onto every input link (the main
link always, the sidechain link when sidechain is enabled) before
consuming or emitting anything, and across any number of activations the
node consumes no queued input, drops no held frame, and pushes no further
output. -/
theorem c10_cancel (o : Oracle) (s : Node) (c : Int)
    (h : s.outDownStatus = some c) :
    ∀ k : Nat, (activateN o k s).mainFifo = s.mainFifo ∧
      (activateN o k s).scSamples = s.scSamples ∧
      (activateN o k s).inF = s.inF ∧
      (activateN o k s).outPushed = s.outPushed ∧
      (0 < k → (activateN o k s).mainOStatus = some c ∧
        (s.sidechain = true → (activateN o k s).scOStatus = some c)) := by
  intro k
  cases k with
  | zero => exact ⟨rfl, rfl, rfl, rfl, fun h0 => absurd h0 (by omega)⟩
  | succ k =>
      obtain ⟨r0, rMain, rScImp, rSide, rFifo, rSamp, rInF, rSc, rPush, rDown⟩ :=
        c10_step o s c h
      obtain ⟨p1, p2, p3, p4, p5, p6, p7⟩ :=
        c10_inv o c k (activate o s).st rDown rMain
          (fun hh => rScImp (rSide.symm.trans hh))
      exact ⟨p1.trans rFifo, p2.trans rSamp, p3.trans rInF, p5.trans rPush,
        fun _ => ⟨p6, fun hh => p7 (rSide.trans hh)⟩⟩

/-- A concrete node whose downstream has set a cancellation status. -/
def cancelNode : Node := { cexNode with outDownStatus := some (-541) }

/-- C10 witness: cancellation at the concrete node, two activations deep. -/
theorem c10_cancel_witness :
    (activateN cexOracle 2 cancelNode).outPushed = [] ∧
    (activateN cexOracle 2 cancelNode).mainOStatus = some (-541) := by
  have h := c10_cancel cexOracle cancelNode (-541) rfl 2
  exact ⟨h.2.2.2.1, (h.2.2.2.2 (by omega)).1⟩

end ADynEq
